import Mathlib

/-!
# Shallow embedding of the `kybe236/dns` DNS message codec

This file embeds the Rust sources `src/lib.rs` and `src/dns_error.rs` into
Lean 4 and proves / refutes the frozen claims about them.

Modelling conventions:
* Rust `u16` / `u32` / `u8` values are `Nat`s; wrap-around is written with
  an explicit `% 2 ^ w` exactly where the Rust code can overflow or casts.
* A Rust operation that can panic (out-of-bounds indexing such as `vec[i]`)
  is modelled as an `Option`-returning function; `none` models the panic.
* A Rust `Result<_, Box<dyn Error>>` is modelled as `Except DnsError _`
  (every error the library constructs is a `DnsError`).
* Rust `String` values handed to `set_questions` are modelled as
  `List Char`; the standard-library calls `split('.')`, `trim`, `len`
  (UTF-8 byte length) and the `c as u8` cast are embedded as the Lean
  functions `splitDot`, `trimChars`, `utf8Len` and `% 256` below.
* The buffers handled by the decoder are `List Nat`s of byte values;
  byte-indexed loops with a moving index `i` become recursion over the
  suffix `v.drop i`, which is step-for-step the Rust loop (indexing past
  the end, which panics in Rust, is `none`).
-/

namespace Dns

/-- Embeds `enum DnsError` from `src/dns_error.rs`.  The three flag errors
carry the extracted field value (an `i32` in Rust; the values are small
non-negative numbers, kept as `Nat`). -/
inductive DnsError where
  | InvalidZFlag (v : Nat)
  | InvalidOpcodeFlag (v : Nat)
  | InvalidRcodeFlag (v : Nat)
  | InvalidQType (v : Nat)
  | InvalidQClass (v : Nat)
  | UdpSocketError (v : Nat)
deriving DecidableEq, Repr

/-- Embeds `struct Header` (fields `id`, `flags`, `qdcount`, `ancount`,
`nscount`, `arcount`, all `u16`). -/
structure Header where
  id : Nat
  flags : Nat
  qdcount : Nat
  ancount : Nat
  nscount : Nat
  arcount : Nat
deriving DecidableEq, Repr

/-- Embeds `struct Question` (`qname : Vec<u8>`, `qtype : u16`,
`qclass : u16`). -/
structure Question where
  qname : List Nat
  qtype : Nat
  qclass : Nat
deriving DecidableEq, Repr

/-- Embeds `struct Resource` (`name`, `rtype`, `rclass`, `ttl`, `rdlength`,
`rdata`). -/
structure Resource where
  name : List Nat
  rtype : Nat
  rclass : Nat
  ttl : Nat
  rdlength : Nat
  rdata : List Nat
deriving DecidableEq, Repr

/-- Embeds `struct Message`. -/
structure Message where
  header : Header
  question : List Question
  answer : List Resource
  authority : List Resource
  additional : List Resource
deriving DecidableEq, Repr

/-- Embeds `Header::new`.  The Rust constructor draws `id` from
`rand::random::<u16>()`; the random draw is the parameter `id` here, all
other fields are zero exactly as in the source. -/
def Header.new (id : Nat) : Header :=
  { id := id, flags := 0, qdcount := 0, ancount := 0, nscount := 0, arcount := 0 }

/-- Embeds `Header::set_id`. -/
def Header.set_id (h : Header) (id : Nat) : Header :=
  { h with id := id }

/-- Embeds `Header::set_flags` from `src/lib.rs` lines 433-450: masks and
shifts exactly as the source (`0b0111_1000_0000_0000 >> 11`, then
`0b0000_0000_0111_0000 >> 4`, then `0b0000_0000_0000_1111`), returning the
first violation, and storing the full 16-bit value on success. -/
def Header.set_flags (h : Header) (flags : Nat) : Except DnsError Header :=
  let test1 := (flags &&& 0x7800) >>> 11
  if test1 > 2 then
    Except.error (DnsError.InvalidOpcodeFlag test1)
  else
    let test2 := (flags &&& 0x0070) >>> 4
    if test2 ≠ 0 then
      Except.error (DnsError.InvalidZFlag test2)
    else
      let test3 := flags &&& 0x000F
      if test3 > 5 then
        Except.error (DnsError.InvalidRcodeFlag test3)
      else
        Except.ok { h with flags := flags }

/-- Embeds `Question::new` (`qname` empty, `qtype = 1`, `qclass = 1`). -/
def Question.new : Question :=
  { qname := [], qtype := 1, qclass := 1 }

/-- The exact list of qtype codes accepted by the `match` in
`Question::set_qtype` (`src/lib.rs` line 508). -/
def validQTypeList : List Nat :=
  [1, 2, 5, 6, 12, 13, 15, 16, 17, 18, 24, 25, 28, 29, 33, 35, 36, 37, 39,
   41, 42, 43, 44, 45, 46, 47, 48, 49, 50, 51, 52, 53, 55, 59, 60, 61, 62,
   63, 64, 65, 108, 109, 249, 250, 251, 252, 255, 256, 257, 32768, 32769]

/-- Whether a qtype value is matched by the accepting arm of
`Question::set_qtype`. -/
def validQType (q : Nat) : Bool :=
  q ∈ validQTypeList

/-- Embeds `Question::set_qtype`. -/
def Question.set_qtype (q : Question) (qtype : Nat) : Except DnsError Question :=
  if validQType qtype then
    Except.ok { q with qtype := qtype }
  else
    Except.error (DnsError.InvalidQType qtype)

/-- Embeds `Question::set_qclass`: the arm
`0 | 5..=253 | 256..=65279 | 65535` rejects, everything else stores. -/
def Question.set_qclass (q : Question) (qclass : Nat) : Except DnsError Question :=
  if qclass = 0 ∨ (5 ≤ qclass ∧ qclass ≤ 253) ∨
      (256 ≤ qclass ∧ qclass ≤ 65279) ∨ qclass = 65535 then
    Except.error (DnsError.InvalidQClass qclass)
  else
    Except.ok { q with qclass := qclass }

/-- Embeds `str::split('.')` as used by `set_questions`: split the
character list at every `'.'`, keeping empty pieces, as Rust's `split`
does. -/
def splitDot : List Char → List (List Char)
  | [] => [[]]
  | c :: rest =>
    if c = '.' then
      [] :: splitDot rest
    else
      match splitDot rest with
      | [] => [[c]]
      | p :: ps => (c :: p) :: ps

/-- Embeds `str::trim` as used by `set_questions`: drop whitespace from
both ends. -/
def trimChars (l : List Char) : List Char :=
  ((l.dropWhile Char.isWhitespace).reverse.dropWhile Char.isWhitespace).reverse

/-- Embeds `str::len` (the UTF-8 byte length) for a trimmed part. -/
def utf8Len (l : List Char) : Nat :=
  l.foldl (fun n c => n + c.utf8Size) 0

/-- The bytes `set_questions` emits for one part: the `part.len() as u8`
length byte followed by `c as u8` for each char of the part. -/
def partBytes (part : List Char) : List Nat :=
  (utf8Len part % 256) :: part.map (fun c => c.toNat % 256)

/-- The bytes `set_questions` emits for one input string: split on `'.'`,
trim each part, then length byte + char bytes per part (no terminator
here; the single `0` terminator is pushed once after all strings). -/
def encodeLabels (s : List Char) : List Nat :=
  ((splitDot s).map trimChars).foldl (fun acc part => acc ++ partBytes part) []

/-- Embeds `Message::new`.  `Header::new` draws a random id, passed here
as the parameter `id`. -/
def Message.new (id : Nat) : Message :=
  { header := Header.new id, question := [], answer := [], authority := [],
    additional := [] }

/-- Embeds `Message::set_questions` (`src/lib.rs` lines 80-104): encodes
all input strings into one byte vector `res`, pushes a single trailing
`0`, increments `qdcount` (a `u16`, hence `% 2 ^ 16`) and appends one
`Question` with `qtype = 0` and `qclass = 0`.  The source performs no
length validation and always returns `Ok(())`. -/
def Message.set_questions (m : Message) (questions : List (List Char)) :
    Except DnsError Message :=
  let res := (questions.foldl (fun acc label => acc ++ encodeLabels label) []) ++ [0]
  Except.ok
    { m with
      header := { m.header with qdcount := (m.header.qdcount + 1) % 2 ^ 16 },
      question := m.question ++ [{ qname := res, qtype := 0, qclass := 0 }] }

/-- `u16::to_be_bytes` on a `Nat` holding a 16-bit value. -/
def toBytes16 (n : Nat) : List Nat :=
  [n / 256 % 256, n % 256]

/-- The bytes the `for i in 0..qdcount` loop of `Message::get_packet`
produces: it indexes `self.question[i]` for `i` from `0` to `qdcount - 1`,
so it walks the prefix of the question list and panics (`none`) when
`qdcount` exceeds the list length. -/
def questionBytes (qs : List Question) (n : Nat) : Option (List Nat) :=
  match n, qs with
  | 0, _ => some []
  | Nat.succ _, [] => none
  | Nat.succ k, q :: rest =>
    (questionBytes rest k).map
      (fun t => q.qname ++ toBytes16 q.qtype ++ toBytes16 q.qclass ++ t)

/-- Embeds `Message::get_packet` (`src/lib.rs` lines 167-181): the six
big-endian header fields followed by each question's `qname`, `qtype`,
`qclass`.  `none` models the panic when `qdcount` exceeds the number of
questions held. -/
def Message.get_packet (m : Message) : Option (List Nat) :=
  (questionBytes m.question m.header.qdcount).map
    (fun qb =>
      toBytes16 m.header.id ++ toBytes16 m.header.flags ++
      toBytes16 m.header.qdcount ++ toBytes16 m.header.ancount ++
      toBytes16 m.header.nscount ++ toBytes16 m.header.arcount ++ qb)

/-- The byte-collecting loop `while vec[i] != 0 \x7b name.push(vec[i]); i += 1 \x7d`
run on the suffix of the buffer that starts at the loop's initial index:
returns the bytes strictly before the first `0` together with the number
of bytes consumed including the `0`.  Running off the end of the buffer
(a panic in Rust) is `none`. -/
def scanList : List Nat → Option (List Nat × Nat)
  | [] => none
  | b :: rest =>
    if b = 0 then
      some ([], 1)
    else
      (scanList rest).map (fun p => (b :: p.1, p.2 + 1))

/-- The same loop, positioned at absolute index `i` of buffer `v`:
returns the bytes before the first `0` at-or-after `i` and the index just
past that `0`. -/
def scanName (v : List Nat) (i : Nat) : Option (List Nat × Nat) :=
  (scanList (v.drop i)).map (fun p => (p.1, i + p.2))

/-- `u16::from_be_bytes([vec[i], vec[i+1]])`; `none` models the
out-of-bounds panic. -/
def read16 (v : List Nat) (i : Nat) : Option Nat :=
  match v[i]?, v[i + 1]? with
  | some a, some b => some (a * 256 + b)
  | _, _ => none

/-- `u32::from_be_bytes([vec[i], .., vec[i+3]])`. -/
def read32 (v : List Nat) (i : Nat) : Option Nat :=
  match v[i]?, v[i + 1]?, v[i + 2]?, v[i + 3]? with
  | some a, some b, some c, some d =>
    some (((a * 256 + b) * 256 + c) * 256 + d)
  | _, _, _, _ => none

/-- The `for _ in 0..rdlength` loop copying `rdlength` bytes of RDATA. -/
def readBytes (v : List Nat) (i : Nat) : Nat → Option (List Nat)
  | 0 => some []
  | Nat.succ k =>
    match v[i]? with
    | none => none
    | some b => (readBytes v (i + 1) k).map (fun t => b :: t)

/-- The question-section loop of `Message::from` (`src/lib.rs` lines
120-134): for each of `n` questions, collect name bytes up to and
including the terminating `0` (no compression handling here), then two
big-endian 16-bit reads for `qtype` and `qclass`. -/
def readQuestions (v : List Nat) : Nat → Nat → Option (List Question × Nat)
  | 0, i => some ([], i)
  | Nat.succ n, i =>
    match scanName v i with
    | none => none
    | some (bs, j) =>
      match read16 v j, read16 v (j + 2) with
      | some qt, some qc =>
        match readQuestions v n (j + 4) with
        | none => none
        | some (rest, k) =>
          some ({ qname := bs ++ [0], qtype := qt, qclass := qc } :: rest, k)
      | _, _ => none

/-- The fixed-size tail of a resource record after its name: `rtype`,
`rclass`, `ttl`, `rdlength`, then `rdlength` bytes of RDATA; returns the
record and the index just past it, as `get_resource` does. -/
def readResourceTail (v : List Nat) (i : Nat) (name : List Nat) :
    Option (Resource × Nat) :=
  match read16 v i, read16 v (i + 2), read32 v (i + 4), read16 v (i + 8) with
  | some rtype, some rclass, some ttl, some rdlength =>
    (readBytes v (i + 10) rdlength).map
      (fun rdata =>
        ({ name := name, rtype := rtype, rclass := rclass, ttl := ttl,
           rdlength := rdlength, rdata := rdata }, i + 10 + rdlength))
  | _, _, _, _ => none

/-- Embeds `Message::get_resource` (`src/lib.rs` lines 223-263).  If the
first byte has its top two bits set, the source computes
`u16::from_be_bytes([vec[i], vec[i+1]]) & 0b0011_1111` — a SIX-bit mask,
written exactly as in the source — takes that as the offset, reads name
bytes from there (the caller's index advances only past the 2 pointer
bytes), otherwise it reads name bytes in place.  Either way a `0` is
appended to the name and the fixed tail follows. -/
def get_resource (v : List Nat) (i : Nat) : Option (Resource × Nat) :=
  match v[i]? with
  | none => none
  | some b =>
    if b &&& 0xC0 = 0xC0 then
      match read16 v i with
      | none => none
      | some w =>
        let offset := w &&& 0x3F
        match scanName v offset with
        | none => none
        | some (bs, _) => readResourceTail v (i + 2) (bs ++ [0])
    else
      match scanName v i with
      | none => none
      | some (bs, j) => readResourceTail v j (bs ++ [0])

/-- One of the three `for _ in 0..count` resource loops of
`Message::from`. -/
def readResources (v : List Nat) : Nat → Nat → Option (List Resource × Nat)
  | 0, i => some ([], i)
  | Nat.succ n, i =>
    match get_resource v i with
    | none => none
    | some (r, j) =>
      match readResources v n j with
      | none => none
      | some (rs, k) => some (r :: rs, k)

/-- Embeds `Message::from` (`src/lib.rs` lines 109-165): six big-endian
16-bit header reads, then `qdcount` questions from index 12, then
`ancount`/`nscount`/`arcount` resources via `get_resource`.  `none`
models the panic the source hits whenever any of these reads indexes past
the end of the buffer.  (Named `fromBytes` because `from` is a Lean
keyword.) -/
def Message.fromBytes (v : List Nat) : Option Message :=
  match read16 v 0, read16 v 2, read16 v 4, read16 v 6, read16 v 8, read16 v 10 with
  | some id, some flags, some qdcount, some ancount, some nscount, some arcount =>
    match readQuestions v qdcount 12 with
    | none => none
    | some (question, i1) =>
      match readResources v ancount i1 with
      | none => none
      | some (answer, i2) =>
        match readResources v nscount i2 with
        | none => none
        | some (authority, i3) =>
          match readResources v arcount i3 with
          | none => none
          | some (additional, _) =>
            some { header := { id := id, flags := flags, qdcount := qdcount,
                               ancount := ancount, nscount := nscount,
                               arcount := arcount },
                   question := question, answer := answer,
                   authority := authority, additional := additional }
  | _, _, _, _, _, _ => none

/-! ## Auxiliary definitions used to state the claims -/

instance {ε α : Type} [DecidableEq ε] [DecidableEq α] :
    DecidableEq (Except ε α) := fun x y =>
  match x, y with
  | Except.ok a, Except.ok b =>
    if h : a = b then isTrue (by rw [h]) else isFalse (by simp [h])
  | Except.error a, Except.error b =>
    if h : a = b then isTrue (by rw [h]) else isFalse (by simp [h])
  | Except.ok _, Except.error _ => isFalse (by simp)
  | Except.error _, Except.ok _ => isFalse (by simp)

/-- Bits 14..11 of a 16-bit flags value (the Opcode field). -/
def opcodeBits (f : Nat) : Nat := f / 2 ^ 11 % 2 ^ 4

/-- Bits 6..4 of a 16-bit flags value (the Z field). -/
def zBits (f : Nat) : Nat := f / 2 ^ 4 % 2 ^ 3

/-- Bits 3..0 of a 16-bit flags value (the RCODE field). -/
def rcodeBits (f : Nat) : Nat := f % 2 ^ 4

/-- A flags value that `Header.set_flags` accepts: the very checks of the
source, as a boolean. -/
def validFlags (f : Nat) : Bool :=
  decide ((f &&& 0x7800) >>> 11 ≤ 2) && decide ((f &&& 0x0070) >>> 4 = 0) &&
    decide (f &&& 0x000F ≤ 5)

/-- A qclass value that `Question.set_qclass` accepts: the complement of
the rejecting match arm of the source. -/
def validQClass (c : Nat) : Bool :=
  !(decide (c = 0 ∨ (5 ≤ c ∧ c ≤ 253) ∨ (256 ≤ c ∧ c ≤ 65279) ∨ c = 65535))

/-- A well-formed wire name: at least one byte, all bytes before the last
non-zero, the last byte the `0` terminator.  (This is the shape
`set_questions` produces for ordinary dotted names and the shape the
question decoder of `Message::from` can reproduce.) -/
def wfNameB : List Nat → Bool
  | [] => false
  | [b] => b == 0
  | b :: rest => (b != 0) && wfNameB rest

/-- The concatenated wire bytes of a question list, as `get_packet` lays
them out. -/
def encQList (qs : List Question) : List Nat :=
  qs.foldr (fun q acc => q.qname ++ toBytes16 q.qtype ++ toBytes16 q.qclass ++ acc) []

/-- A 64-character label, one byte longer than the 63-byte label limit the
spec requires the encoder to enforce. -/
def longLabel : List Char := List.replicate 64 'a'

/-- A buffer whose single answer record's name is the compression pointer
`0xC0 0x40`: its 14-bit offset is 64, where the name `3 a b c 0` lies;
bytes 0..1 (the id field) hold `7 0`, the name a 6-bit-masked offset of 0
would produce. -/
def ptrBuf : List Nat :=
  [7, 0, 0, 0, 0, 0, 0, 1, 0, 0, 0, 0] ++ [0xC0, 0x40] ++
    [0, 1, 0, 1, 0, 0, 0, 0, 0, 0] ++ List.replicate 40 1 ++ [3, 97, 98, 99, 0]

/-- A buffer with two answer records: a full name `3 a b c 0` at offset
12, and a second record whose name is the 2-byte pointer `0xC0 0x0C`
back to offset 12. -/
def ptrBuf12 : List Nat :=
  [0, 0, 0, 0, 0, 0, 0, 2, 0, 0, 0, 0] ++
    [3, 97, 98, 99, 0] ++ [0, 1, 0, 1, 0, 0, 0, 0, 0, 0] ++
    [0xC0, 0x0C] ++ [0, 1, 0, 1, 0, 0, 0, 0, 0, 0]

/-- A message meeting every hypothesis of claim C2 as stated (valid
flags/qtype/qclass, empty resource sections, counts matching) whose
`qname` is not a well-formed name (it is empty): round-tripping it does
not reproduce it. -/
def badMsg : Message :=
  { header := { id := 0, flags := 0, qdcount := 1, ancount := 0, nscount := 0,
                arcount := 0 },
    question := [{ qname := [], qtype := 1, qclass := 1 }],
    answer := [], authority := [], additional := [] }

/-- A concrete message satisfying every hypothesis of the amended
round-trip claim (its qname is a well-formed name). -/
def goodMsg : Message :=
  { header := { id := 7, flags := 0, qdcount := 1, ancount := 0, nscount := 0,
                arcount := 0 },
    question := [{ qname := [1, 97, 0], qtype := 1, qclass := 1 }],
    answer := [], authority := [], additional := [] }

end Dns

namespace Dns

/-! ## Theorems

First, the bridge between the mask-and-shift computations of
`Header.set_flags` and the bit-field extractions the claims speak of. -/

theorem and_0x7800_shr (f : Nat) : (f &&& 0x7800) >>> 11 = opcodeBits f := by
  have h78 : (0x7800 : Nat) = (2 ^ 4 - 1) <<< 11 := by decide
  rw [opcodeBits, ← Nat.shiftRight_eq_div_pow, h78]
  apply Nat.eq_of_testBit_eq
  intro j
  simp only [Nat.testBit_shiftRight, Nat.testBit_and, Nat.testBit_shiftLeft,
    Nat.testBit_two_pow_sub_one, Nat.testBit_mod_two_pow]
  cases hb : Nat.testBit f (11 + j) <;> simp

theorem and_0x70_shr (f : Nat) : (f &&& 0x0070) >>> 4 = zBits f := by
  have h70 : (0x0070 : Nat) = (2 ^ 3 - 1) <<< 4 := by decide
  rw [zBits, ← Nat.shiftRight_eq_div_pow, h70]
  apply Nat.eq_of_testBit_eq
  intro j
  simp only [Nat.testBit_shiftRight, Nat.testBit_and, Nat.testBit_shiftLeft,
    Nat.testBit_two_pow_sub_one, Nat.testBit_mod_two_pow]
  cases hb : Nat.testBit f (4 + j) <;> simp

theorem and_0xF_eq (f : Nat) : f &&& 0x000F = rcodeBits f := by
  have h15 : (0x000F : Nat) = 2 ^ 4 - 1 := by decide
  rw [rcodeBits, h15, Nat.and_pow_two_sub_one_eq_mod]

/-- C4: for every 16-bit value `f`, `set_flags f` succeeds iff the opcode
bits (14..11) are at most 2, the Z bits (6..4) are 0 and the rcode bits
(3..0) are at most 5; the checks run in the order opcode, Z, rcode, the
error carries the extracted value of the first violated field, and on
success the full 16-bit value is stored (QR/AA/TC/RD/RA pass through
unchecked; on failure the function returns before the assignment
`self.flags = flags`, so the stored flags are unchanged). -/
theorem set_flags_spec (h : Header) (f : Nat) (hf : f < 2 ^ 16) :
    ((∃ g, h.set_flags f = Except.ok g) ↔
       opcodeBits f ≤ 2 ∧ zBits f = 0 ∧ rcodeBits f ≤ 5) ∧
    (2 < opcodeBits f →
       h.set_flags f = Except.error (DnsError.InvalidOpcodeFlag (opcodeBits f))) ∧
    (opcodeBits f ≤ 2 → zBits f ≠ 0 →
       h.set_flags f = Except.error (DnsError.InvalidZFlag (zBits f))) ∧
    (opcodeBits f ≤ 2 → zBits f = 0 → 5 < rcodeBits f →
       h.set_flags f = Except.error (DnsError.InvalidRcodeFlag (rcodeBits f))) ∧
    (opcodeBits f ≤ 2 → zBits f = 0 → rcodeBits f ≤ 5 →
       h.set_flags f = Except.ok { h with flags := f }) := by
  simp only [Header.set_flags, and_0x7800_shr, and_0x70_shr, and_0xF_eq]
  split_ifs with h1 h2 h3 <;> simp_all

/-- Witness for `set_flags_spec` at `f = 5` (opcode 0, Z 0, rcode 5). -/
theorem set_flags_spec_witness :
    (5 : Nat) < 2 ^ 16 ∧
    (((∃ g, (Header.new 0).set_flags 5 = Except.ok g) ↔
        opcodeBits 5 ≤ 2 ∧ zBits 5 = 0 ∧ rcodeBits 5 ≤ 5) ∧
     (2 < opcodeBits 5 →
        (Header.new 0).set_flags 5 =
          Except.error (DnsError.InvalidOpcodeFlag (opcodeBits 5))) ∧
     (opcodeBits 5 ≤ 2 → zBits 5 ≠ 0 →
        (Header.new 0).set_flags 5 = Except.error (DnsError.InvalidZFlag (zBits 5))) ∧
     (opcodeBits 5 ≤ 2 → zBits 5 = 0 → 5 < rcodeBits 5 →
        (Header.new 0).set_flags 5 =
          Except.error (DnsError.InvalidRcodeFlag (rcodeBits 5))) ∧
     (opcodeBits 5 ≤ 2 → zBits 5 = 0 → rcodeBits 5 ≤ 5 →
        (Header.new 0).set_flags 5 = Except.ok { Header.new 0 with flags := 5 })) :=
  ⟨by decide, set_flags_spec (Header.new 0) 5 (by decide)⟩

/-- C7 counterexample: `set_flags 0b0111_1000_0000_0000` does fail with an
Invalid-opcode-field error, but the extracted value it reports is 15
(the four opcode bits 14..11 of that input are all set), not 3 as the
claim states. -/
theorem set_flags_0x7800_not_three :
    (Header.new 0).set_flags 0x7800 ≠
      Except.error (DnsError.InvalidOpcodeFlag 3) ∧
    (Header.new 0).set_flags 0x7800 =
      Except.error (DnsError.InvalidOpcodeFlag 15) := by decide

/-- C7 amended: `set_flags 0b0111_1000_0000_0000` fails, on any header,
with an Invalid-opcode-field error whose reported extracted value is 15. -/
theorem set_flags_0x7800_reports_fifteen (h : Header) :
    h.set_flags 0x7800 = Except.error (DnsError.InvalidOpcodeFlag 15) := rfl

end Dns

namespace Dns

/-- C6 counterexample: `set_qclass 254` does not fail — 254 (QCLASS NONE)
is not matched by the rejecting arm `0 | 5..=253 | 256..=65279 | 65535`,
so the source stores it and returns `Ok`. -/
theorem set_qclass_254_succeeds :
    Question.new.set_qclass 254 =
      Except.ok { qname := [], qtype := 1, qclass := 254 } ∧
    ¬ ∃ e, Question.new.set_qclass 254 = Except.error e := by
  refine ⟨by decide, ?_⟩
  rintro ⟨e, he⟩
  rw [show Question.new.set_qclass 254 =
        Except.ok { qname := [], qtype := 1, qclass := 254 } by decide] at he
  exact Except.noConfusion he

/-- C6 amended: on any question, `set_qclass 1` succeeds storing 1,
`set_qclass 0` fails with Invalid-qclass reporting 0, and `set_qclass 254`
succeeds storing 254. -/
theorem set_qclass_cases (q : Question) :
    q.set_qclass 1 = Except.ok { q with qclass := 1 } ∧
    q.set_qclass 0 = Except.error (DnsError.InvalidQClass 0) ∧
    q.set_qclass 254 = Except.ok { q with qclass := 254 } := by
  refine ⟨?_, ?_, ?_⟩ <;> simp [Question.set_qclass]

/-- C8: `set_qtype` succeeds exactly on the enumerated recognized qtype
codes; when it succeeds it stores the value, when it fails it reports the
offending value; in particular `set_qtype 1` succeeds storing 1 and
`set_qtype 3` fails with Invalid-qtype reporting 3. -/
theorem set_qtype_spec (q : Question) (t : Nat) :
    ((∃ g, q.set_qtype t = Except.ok g) ↔ t ∈ validQTypeList) ∧
    (q.set_qtype t = Except.ok { q with qtype := t } ∨
       q.set_qtype t = Except.error (DnsError.InvalidQType t)) ∧
    q.set_qtype 1 = Except.ok { q with qtype := 1 } ∧
    q.set_qtype 3 = Except.error (DnsError.InvalidQType 3) := by
  refine ⟨?_, ?_, ?_, ?_⟩
  · unfold Question.set_qtype validQType
    split_ifs with h
    · simp_all
    · simp_all
  · unfold Question.set_qtype
    split_ifs <;> simp
  · simp [Question.set_qtype, validQType, validQTypeList]
  · simp [Question.set_qtype, validQType, validQTypeList]

/-- C9: encoding the domain name `www.google.com` through `set_questions`
produces exactly the qname byte sequence
`[3,119,119,119,6,103,111,111,103,108,101,3,99,111,109,0]`. -/
theorem encode_www_google_com :
    Message.set_questions (Message.new 0) ["www.google.com".data] =
      Except.ok
        { header := { id := 0, flags := 0, qdcount := 1, ancount := 0,
                      nscount := 0, arcount := 0 },
          question := [{ qname := [3, 119, 119, 119, 6, 103, 111, 111, 103,
                                   108, 101, 3, 99, 111, 109, 0],
                         qtype := 0, qclass := 0 }],
          answer := [], authority := [], additional := [] } := by decide

end Dns

namespace Dns

/-- C10: every question appended by `set_questions` carries `qtype = 0`
and `qclass = 0`; 0 is not in the recognized qtype set and
`set_qclass 0` fails with Invalid-qclass(0); yet a message built from
`Message::new` with `set_questions` alone serializes through `get_packet`
with no validation error, its final four bytes being the zero qtype and
zero qclass. -/
theorem set_questions_defaults (m : Message) (qs : List (List Char)) (id : Nat) :
    (∃ m', m.set_questions qs = Except.ok m' ∧
       ∃ q', m'.question = m.question ++ [q'] ∧ q'.qtype = 0 ∧ q'.qclass = 0) ∧
    validQType 0 = false ∧
    (∀ q : Question, q.set_qclass 0 = Except.error (DnsError.InvalidQClass 0)) ∧
    (∃ m₁ p, (Message.new id).set_questions qs = Except.ok m₁ ∧
       m₁.get_packet = some p ∧ ∃ pre, p = pre ++ [0, 0, 0, 0]) := by
  refine ⟨⟨_, rfl, _, rfl, rfl, rfl⟩, by decide, fun q => by simp [Question.set_qclass], ?_⟩
  refine ⟨_, toBytes16 id ++ [0, 0, 0, 1, 0, 0, 0, 0, 0, 0] ++
      (((qs.foldl (fun acc label => acc ++ encodeLabels label) []) ++ [0]) ++ [0, 0, 0, 0]),
    rfl, ?_, toBytes16 id ++ [0, 0, 0, 1, 0, 0, 0, 0, 0, 0] ++
      ((qs.foldl (fun acc label => acc ++ encodeLabels label) []) ++ [0]), ?_⟩
  · simp [Message.get_packet, Message.set_questions, Message.new, Header.new,
      questionBytes, toBytes16]
  · simp

/-- C5: `set_questions` performs no length validation at all — it is
total, returning `Ok` on every input; in particular a single 64-byte
label (one past the 63-byte label limit) is encoded as the length byte 64
followed by the 64 label bytes, with no size-violation error (no
Name-too-long variant even exists in `DnsError`). -/
theorem set_questions_never_fails (m : Message) (qs : List (List Char)) :
    (∃ m', m.set_questions qs = Except.ok m') ∧
    Message.set_questions (Message.new 0) [longLabel] =
      Except.ok
        { header := { id := 0, flags := 0, qdcount := 1, ancount := 0,
                      nscount := 0, arcount := 0 },
          question := [{ qname := 64 :: (List.replicate 64 97 ++ [0]),
                         qtype := 0, qclass := 0 }],
          answer := [], authority := [], additional := [] } := by
  exact ⟨⟨_, rfl⟩, by decide⟩

/-- C1: decoding a truncated buffer panics (modelled `none`) instead of
returning a Malformed-message error: a 12-byte buffer whose header
declares `qdcount = 1` makes `Message::from` index past the end, and so
does the empty buffer on the very first header read.  (`DnsError` has no
Malformed-message variant at all.) -/
theorem fromBytes_truncated_panics :
    Message.fromBytes [0, 0, 0, 0, 0, 1, 0, 0, 0, 0, 0, 0] = none ∧
    Message.fromBytes [] = none := by decide

/-- C3: the decoder masks the two pointer bytes with `0b0011_1111`, a
6-bit mask, not the 14-bit mask of the claim.  On `ptrBuf`, whose answer
name is the pointer `0xC0 0x40` (14-bit offset 64, where the name
`3 a b c 0` lies), the code instead reads from offset
`0xC040 &&& 0x3F = 0`, producing the name `[7, 0]` out of the id field.
On `ptrBuf12`, whose second answer is the pointer `0xC0 0x0C` (offset 12,
small enough to survive the 6-bit mask), both names do decode
identically, and the cursor advances past the 2 pointer bytes so the
record tail parses. -/
theorem pointer_mask_is_six_bits :
    (Message.fromBytes ptrBuf).map (fun m => m.answer.map Resource.name) =
      some [[7, 0]] ∧
    (0xC0 * 256 + 0x40) % 2 ^ 14 = 64 ∧
    scanName ptrBuf 64 = some ([3, 97, 98, 99], 69) ∧
    (0xC040 &&& 0x3F) = 0 ∧
    (Message.fromBytes ptrBuf12).map (fun m => m.answer.map Resource.name) =
      some [[3, 97, 98, 99, 0], [3, 97, 98, 99, 0]] := by
  refine ⟨by decide, by decide, by decide, by decide, by decide⟩

end Dns

namespace Dns

/-! ### Helper lemmas for the round-trip claim -/

theorem scanList_encode (bs t : List Nat) (h : ∀ b ∈ bs, b ≠ 0) :
    scanList (bs ++ 0 :: t) = some (bs, bs.length + 1) := by
  induction bs with
  | nil => simp [scanList]
  | cons b bs ih =>
    have hb : b ≠ 0 := h b (List.mem_cons_self b bs)
    have ih' := ih (fun x hx => h x (List.mem_cons_of_mem b hx))
    simp [scanList, hb, ih']

theorem scanName_encode (p bs t : List Nat) (h : ∀ b ∈ bs, b ≠ 0) :
    scanName (p ++ (bs ++ 0 :: t)) p.length =
      some (bs, p.length + (bs.length + 1)) := by
  unfold scanName
  rw [List.drop_left, scanList_encode bs t h]
  rfl

theorem read16_at (p t : List Nat) (a b : Nat) :
    read16 (p ++ a :: b :: t) p.length = some (a * 256 + b) := by
  have h1 : (p ++ a :: b :: t)[p.length]? = some a := by
    rw [List.getElem?_append_right (Nat.le_refl _)]
    simp
  have h2 : (p ++ a :: b :: t)[p.length + 1]? = some b := by
    rw [List.getElem?_append_right (Nat.le_succ_of_le (Nat.le_refl _))]
    have e : p.length + 1 - p.length = 1 := by omega
    rw [e]
    simp
  simp [read16, h1, h2]

theorem read16_toBytes16 (p t : List Nat) (n : Nat) (hn : n < 2 ^ 16) :
    read16 (p ++ (toBytes16 n ++ t)) p.length = some n := by
  have h := read16_at p t (n / 256 % 256) (n % 256)
  have e : toBytes16 n ++ t = n / 256 % 256 :: n % 256 :: t := rfl
  rw [e, h]
  exact congrArg some (by omega)

theorem wfNameB_shape : ∀ l : List Nat, wfNameB l = true →
    ∃ bs, l = bs ++ [0] ∧ ∀ b ∈ bs, b ≠ 0
  | [], h => by simp [wfNameB] at h
  | [b], h => by
    simp [wfNameB] at h
    exact ⟨[], by simp [h], by simp⟩
  | b :: c :: rest, h => by
    have h' : ((b != 0) && wfNameB (c :: rest)) = true := h
    rw [Bool.and_eq_true, bne_iff_ne] at h'
    obtain ⟨hb, hrest⟩ := h'
    obtain ⟨bs, heq, hne⟩ := wfNameB_shape (c :: rest) hrest
    refine ⟨b :: bs, by simp [heq], ?_⟩
    intro x hx
    rcases List.mem_cons.1 hx with rfl | hm
    · exact hb
    · exact hne x hm

theorem encQList_cons (q : Question) (qs : List Question) :
    encQList (q :: qs) =
      q.qname ++ toBytes16 q.qtype ++ toBytes16 q.qclass ++ encQList qs := rfl

theorem questionBytes_full (qs : List Question) :
    questionBytes qs qs.length = some (encQList qs) := by
  induction qs with
  | nil => rfl
  | cons q rest ih =>
    simp only [List.length_cons, questionBytes, ih, Option.map_some]
    rw [encQList_cons]
    simp

theorem readQuestions_encode :
    ∀ (qs : List Question) (p : List Nat),
      (∀ q ∈ qs, wfNameB q.qname = true ∧ q.qtype < 2 ^ 16 ∧ q.qclass < 2 ^ 16) →
      readQuestions (p ++ encQList qs) qs.length p.length =
        some (qs, (p ++ encQList qs).length)
  | [], p, _ => by simp [readQuestions, encQList]
  | q :: qs, p, h => by
    obtain ⟨hwf, hqt, hqc⟩ := h q (List.mem_cons_self q qs)
    have hrest : ∀ r ∈ qs,
        wfNameB r.qname = true ∧ r.qtype < 2 ^ 16 ∧ r.qclass < 2 ^ 16 :=
      fun r hr => h r (List.mem_cons_of_mem q hr)
    obtain ⟨bs, hname, hbs⟩ := wfNameB_shape q.qname hwf
    have hv : p ++ encQList (q :: qs) =
        p ++ (bs ++ 0 :: (toBytes16 q.qtype ++ (toBytes16 q.qclass ++ encQList qs))) := by
      rw [encQList_cons, hname]
      simp
    have hscan : scanName (p ++ encQList (q :: qs)) p.length =
        some (bs, p.length + (bs.length + 1)) := by
      rw [hv]
      exact scanName_encode p bs _ hbs
    have hv2 : p ++ encQList (q :: qs) =
        (p ++ bs ++ [0]) ++ (toBytes16 q.qtype ++ (toBytes16 q.qclass ++ encQList qs)) := by
      rw [hv]
      simp
    have hlen1 : (p ++ bs ++ [0]).length = p.length + (bs.length + 1) := by
      simp
    have hr1 : read16 (p ++ encQList (q :: qs)) (p.length + (bs.length + 1)) =
        some q.qtype := by
      rw [hv2, ← hlen1]
      exact read16_toBytes16 _ _ _ hqt
    have hv3 : p ++ encQList (q :: qs) =
        (p ++ bs ++ [0] ++ toBytes16 q.qtype) ++ (toBytes16 q.qclass ++ encQList qs) := by
      rw [hv]
      simp
    have hlen2 : (p ++ bs ++ [0] ++ toBytes16 q.qtype).length =
        p.length + (bs.length + 1) + 2 := by
      simp [toBytes16]
      omega
    have hr2 : read16 (p ++ encQList (q :: qs)) (p.length + (bs.length + 1) + 2) =
        some q.qclass := by
      rw [hv3, ← hlen2]
      exact read16_toBytes16 _ _ _ hqc
    have hv4 : p ++ encQList (q :: qs) =
        (p ++ q.qname ++ toBytes16 q.qtype ++ toBytes16 q.qclass) ++ encQList qs := by
      rw [encQList_cons]
      simp
    have hih := readQuestions_encode qs
        (p ++ q.qname ++ toBytes16 q.qtype ++ toBytes16 q.qclass) hrest
    rw [← hv4] at hih
    have hlen3 : (p ++ q.qname ++ toBytes16 q.qtype ++ toBytes16 q.qclass).length =
        p.length + (bs.length + 1) + 2 + 2 := by
      simp [toBytes16, hname]
      omega
    rw [hlen3] at hih
    have hqrec : ({ qname := bs ++ [0], qtype := q.qtype, qclass := q.qclass } :
        Question) = q := by
      rw [← hname]
    simp only [List.length_cons, readQuestions, hscan, hr1, hr2]
    rw [show p.length + (bs.length + 1) + 4 = p.length + (bs.length + 1) + 2 + 2 by omega]
    rw [hih]
    simp [hqrec]

end Dns

namespace Dns

/-- C2 counterexample: `badMsg` satisfies every hypothesis of the claim as
stated — valid flags, valid qtype and qclass, empty resource sections,
counts matching — yet decoding its encoding does not reproduce it: its
(empty) qname makes the decoder misparse, so the claim needs the qnames
to be well-formed wire names. -/
theorem badMsg_roundtrip_fails :
    validFlags badMsg.header.flags = true ∧
    (∀ q ∈ badMsg.question, validQType q.qtype = true ∧
       validQClass q.qclass = true) ∧
    badMsg.header.qdcount = badMsg.question.length ∧
    badMsg.header.ancount = 0 ∧ badMsg.header.nscount = 0 ∧
    badMsg.header.arcount = 0 ∧
    badMsg.answer = [] ∧ badMsg.authority = [] ∧ badMsg.additional = [] ∧
    badMsg.get_packet.bind Message.fromBytes ≠ some badMsg := by decide

/-- C2 amended: for every message with 16-bit header fields, valid flags,
valid 16-bit qtype/qclass values, *well-formed qnames* (nonzero bytes
followed by the single `0` terminator), empty answer/authority/additional
sections and counts matching the sequences, decoding the encoding
reproduces the message exactly (header fields and question list
included). -/
theorem roundtrip (m : Message)
    (hid : m.header.id < 2 ^ 16)
    (hfl : m.header.flags < 2 ^ 16)
    (hflv : validFlags m.header.flags = true)
    (hqd : m.header.qdcount = m.question.length)
    (hqlen : m.question.length < 2 ^ 16)
    (han : m.header.ancount = 0) (hns : m.header.nscount = 0)
    (har : m.header.arcount = 0)
    (hansl : m.answer = []) (hauth : m.authority = []) (hadd : m.additional = [])
    (hq : ∀ q ∈ m.question, wfNameB q.qname = true ∧ validQType q.qtype = true ∧
        validQClass q.qclass = true ∧ q.qtype < 2 ^ 16 ∧ q.qclass < 2 ^ 16) :
    ∃ p, m.get_packet = some p ∧ Message.fromBytes p = some m := by
  obtain ⟨⟨mid, mfl, mqd, man, mns, mar⟩, qs, ans, auth, addl⟩ := m
  dsimp only at hid hfl hflv hqd hqlen han hns har hansl hauth hadd hq
  subst hqd han hns har hansl hauth hadd
  have hq' : ∀ q ∈ qs, wfNameB q.qname = true ∧ q.qtype < 2 ^ 16 ∧
      q.qclass < 2 ^ 16 :=
    fun q hmem => ⟨(hq q hmem).1, (hq q hmem).2.2.2.1, (hq q hmem).2.2.2.2⟩
  set p : List Nat := toBytes16 mid ++ (toBytes16 mfl ++ (toBytes16 qs.length ++
    (toBytes16 0 ++ (toBytes16 0 ++ (toBytes16 0 ++ encQList qs))))) with hp
  have hpacket : Message.get_packet
      ⟨⟨mid, mfl, qs.length, 0, 0, 0⟩, qs, [], [], []⟩ = some p := by
    unfold Message.get_packet
    dsimp only
    rw [questionBytes_full]
    rfl
  have h0 : read16 p 0 = some mid :=
    read16_toBytes16 [] _ mid hid
  have h2 : read16 p 2 = some mfl :=
    read16_toBytes16 (toBytes16 mid) _ mfl hfl
  have h4 : read16 p 4 = some qs.length :=
    read16_toBytes16 (toBytes16 mid ++ toBytes16 mfl) _ qs.length hqlen
  have h6 : read16 p 6 = some 0 :=
    read16_toBytes16 (toBytes16 mid ++ toBytes16 mfl ++ toBytes16 qs.length) _ 0
      (by omega)
  have h8 : read16 p 8 = some 0 :=
    read16_toBytes16
      (toBytes16 mid ++ toBytes16 mfl ++ toBytes16 qs.length ++ toBytes16 0) _ 0
      (by omega)
  have h10 : read16 p 10 = some 0 :=
    read16_toBytes16
      (toBytes16 mid ++ toBytes16 mfl ++ toBytes16 qs.length ++ toBytes16 0 ++
        toBytes16 0) _ 0 (by omega)
  have hreadq : readQuestions p qs.length 12 = some (qs, p.length) :=
    readQuestions_encode qs
      (toBytes16 mid ++ (toBytes16 mfl ++ (toBytes16 qs.length ++
        (toBytes16 0 ++ (toBytes16 0 ++ toBytes16 0))))) hq'
  have hdec : Message.fromBytes p =
      some ⟨⟨mid, mfl, qs.length, 0, 0, 0⟩, qs, [], [], []⟩ := by
    unfold Message.fromBytes
    rw [h0, h2, h4, h6, h8, h10]
    dsimp only
    rw [hreadq]
    dsimp only [readResources]
  exact ⟨p, hpacket, hdec⟩

/-- Witness for `roundtrip` at the concrete message `goodMsg`. -/
theorem roundtrip_witness :
    goodMsg.header.id < 2 ^ 16 ∧
    goodMsg.header.flags < 2 ^ 16 ∧
    validFlags goodMsg.header.flags = true ∧
    goodMsg.header.qdcount = goodMsg.question.length ∧
    goodMsg.question.length < 2 ^ 16 ∧
    goodMsg.header.ancount = 0 ∧ goodMsg.header.nscount = 0 ∧
    goodMsg.header.arcount = 0 ∧
    goodMsg.answer = [] ∧ goodMsg.authority = [] ∧ goodMsg.additional = [] ∧
    (∀ q ∈ goodMsg.question, wfNameB q.qname = true ∧
       validQType q.qtype = true ∧ validQClass q.qclass = true ∧
       q.qtype < 2 ^ 16 ∧ q.qclass < 2 ^ 16) ∧
    ∃ p, goodMsg.get_packet = some p ∧ Message.fromBytes p = some goodMsg :=
  ⟨by decide, by decide, by decide, by decide, by decide, by decide, by decide,
   by decide, by decide, by decide, by decide, by decide,
   roundtrip goodMsg (by decide) (by decide) (by decide) (by decide) (by decide)
     (by decide) (by decide) (by decide) (by decide) (by decide) (by decide)
     (by decide)⟩

end Dns
